import Mathlib

set_option maxRecDepth 16000
set_option maxHeartbeats 1000000

/-!
Verification development for the render-request orchestration layer of an
OpenSCAD-in-the-browser editor.  The TypeScript sources are shallowly
embedded: byte buffers become `List Nat`, the engine and its virtual file
system become explicit state records, promise chains become an explicit
queue structure, and React state updates become explicit state-passing.
-/

namespace AgentCad

/-! ## Mesh decoder (src/lib/stl-parser.ts)

A 32-bit float cell of a `Float32Array` is represented opaquely: the binary
path stores the raw little-endian 4-byte pattern, the text path stores the
token handed to `parseFloat` (`Option` because a missing token reads as
`undefined`), and the literal `0` entries of the initial `currentNormal`
are kept as literals.  The claims about the decoder only concern the shape
(lengths) of the output arrays, never the numeric value of a cell. -/

inductive Scalar where
  | bits (n : Nat)
  | tok (t : Option String)
  | lit (n : Nat)
  deriving DecidableEq, Repr

/-- `STLMesh` from src/types: two flat parallel arrays. -/
structure STLMesh where
  vertices : List Scalar
  normals : List Scalar
  deriving DecidableEq, Repr

/-- The only exception the parser can raise: a `DataView` /
`Uint8Array` out-of-bounds access (`RangeError` in JS). -/
inductive STLErr where
  | rangeError
  deriving DecidableEq, Repr

/-- The little-endian 32-bit value formed by four consecutive bytes. -/
def word32At (b : List Nat) (off : Nat) (h : off + 4 ≤ b.length) : Nat :=
  b.get ⟨off, by omega⟩ + b.get ⟨off + 1, by omega⟩ * 256 +
  b.get ⟨off + 2, by omega⟩ * 65536 + b.get ⟨off + 3, by omega⟩ * 16777216

/-- `DataView.getUint32(off, true)` : bounds-checked (a read past the end
of the view raises `RangeError`), little-endian. -/
def getUint32LE (b : List Nat) (off : Nat) : Except STLErr Nat :=
  if h : off + 4 ≤ b.length then .ok (word32At b off h)
  else .error .rangeError

/-- `DataView.getFloat32(off, true)` : the raw 4-byte pattern, bounds-checked. -/
def getFloat32LE (b : List Nat) (off : Nat) : Except STLErr Scalar :=
  if h : off + 4 ≤ b.length then .ok (.bits (word32At b off h))
  else .error .rangeError

/-- Model of `TextDecoder().decode` restricted to the ASCII range (the STL
text format and everything the claims exercise is ASCII). -/
def decodeBytes (b : List Nat) : String :=
  ⟨b.map Char.ofNat⟩

/-- Model of `TextEncoder().encode` for ASCII strings. -/
def encodeStr (s : String) : List Nat :=
  s.toList.map Char.toNat

/-- JavaScript whitespace (`\s`, `trim`) for the characters that can occur
in a line of an ASCII artifact or OpenSCAD source. -/
def jsWhite (c : Char) : Bool :=
  c = ' ' || c = '\t' || c = '\n' || c = '\r' ||
  c = Char.ofNat 11 || c = Char.ofNat 12 || c = Char.ofNat 160

/-- `String.prototype.trim`. -/
def jsTrim (s : String) : String :=
  ⟨(s.toList.dropWhile jsWhite).reverse.dropWhile jsWhite |>.reverse⟩

/-- `String.prototype.startsWith`. -/
def strStarts (s p : String) : Bool :=
  s.toList.take p.toList.length = p.toList

/-- `text.split('\n')`. -/
def splitNlGo : List Char → List Char → List String
  | [], cur => [⟨cur.reverse⟩]
  | c :: rest, cur =>
      if c = '\n' then ⟨cur.reverse⟩ :: splitNlGo rest []
      else splitNlGo rest (c :: cur)

def splitLines (s : String) : List String :=
  splitNlGo s.toList []

/-- `trimmed.split(/\s+/)` on an already trimmed string: maximal runs of
non-whitespace characters. -/
def splitWsGo : List Char → List Char → List String
  | [], cur => if cur.isEmpty then [] else [⟨cur.reverse⟩]
  | c :: rest, cur =>
      if jsWhite c then
        if cur.isEmpty then splitWsGo rest [] else ⟨cur.reverse⟩ :: splitWsGo rest []
      else splitWsGo rest (c :: cur)

def splitWs (s : String) : List String :=
  splitWsGo s.toList []

/-- One triangle record of the binary layout: a 3-float normal, three
3-float vertices, and a skipped 2-byte attribute field (50 bytes). -/
def binTriangles (b : List Nat) : Nat → Nat → Except STLErr (List Scalar × List Scalar)
  | 0, _ => .ok ([], [])
  | i + 1, off => do
      let nx ← getFloat32LE b off
      let ny ← getFloat32LE b (off + 4)
      let nz ← getFloat32LE b (off + 8)
      let v1x ← getFloat32LE b (off + 12)
      let v1y ← getFloat32LE b (off + 16)
      let v1z ← getFloat32LE b (off + 20)
      let v2x ← getFloat32LE b (off + 24)
      let v2y ← getFloat32LE b (off + 28)
      let v2z ← getFloat32LE b (off + 32)
      let v3x ← getFloat32LE b (off + 36)
      let v3y ← getFloat32LE b (off + 40)
      let v3z ← getFloat32LE b (off + 44)
      let (vs, ns) ← binTriangles b i (off + 50)
      .ok ([v1x, v1y, v1z, v2x, v2y, v2z, v3x, v3y, v3z] ++ vs,
           [nx, ny, nz, nx, ny, nz, nx, ny, nz] ++ ns)

/-- `parseBinarySTL`: little-endian 32-bit triangle count at offset 80,
then 50 bytes per triangle starting at offset 84. -/
def parseBinarySTL (b : List Nat) : Except STLErr STLMesh := do
  let tc ← getUint32LE b 80
  let (vs, ns) ← binTriangles b tc 84
  .ok ⟨vs, ns⟩

/-- State of the `parseASCIISTL` line loop. -/
structure AsciiSt where
  currentNormal : List Scalar
  vertices : List Scalar
  normals : List Scalar

/-- One line of the text path: `facet normal` lines set the current normal
from tokens 2..4, `vertex` lines append tokens 1..3 to the vertices and the
current normal to the normals. -/
def asciiLine (st : AsciiSt) (line : String) : AsciiSt :=
  let trimmed := jsTrim line
  if strStarts trimmed "facet normal" then
    let parts := splitWs trimmed
    { st with currentNormal := [.tok parts[2]?, .tok parts[3]?, .tok parts[4]?] }
  else if strStarts trimmed "vertex" then
    let parts := splitWs trimmed
    { st with
      vertices := st.vertices ++ [.tok parts[1]?, .tok parts[2]?, .tok parts[3]?],
      normals := st.normals ++ st.currentNormal }
  else st

/-- `parseASCIISTL`. -/
def parseASCIISTL (b : List Nat) : STLMesh :=
  let text := decodeBytes b
  let lines := splitLines text
  let st := lines.foldl asciiLine ⟨[.lit 0, .lit 0, .lit 0], [], []⟩
  ⟨st.vertices, st.normals⟩

/-- `isBinarySTL`: the buffer size matches the binary layout implied by the
32-bit count at offset 80 up to a tolerance of 10 bytes.  The `getUint32`
read can itself raise a `RangeError`. -/
def isBinarySTL (b : List Nat) : Except STLErr Bool := do
  let triangleCount ← getUint32LE b 80
  let expectedSize : Int := 80 + 4 + triangleCount * 50
  .ok (((b.length : Int) - expectedSize).natAbs < 10)

/-- `parseSTL`: decodes the 80-byte header (`new Uint8Array(buffer, 0, 80)`
raises a `RangeError` on a buffer shorter than 80 bytes), routes text
artifacts that start with `solid` and fail the binary-size check to the
text path, everything else to the binary path. -/
def parseSTL (b : List Nat) : Except STLErr STLMesh :=
  if b.length < 80 then .error .rangeError
  else
    let headerString := decodeBytes (b.take 80)
    if strStarts headerString "solid" then
      match isBinarySTL b with
      | .error e => .error e
      | .ok true => parseBinarySTL b
      | .ok false => .ok (parseASCIISTL b)
    else parseBinarySTL b

/-! ## Static linter (src/lib/openscad-linter.ts, `lintOpenSCAD`)

A faithful transliteration of the single-pass scan: per-line character loop
tracking block comments, strings, and a stack of open delimiters, plus the
missing-semicolon heuristic (which only ever emits `warning`-severity
entries).  The two heuristic regexes are rendered as the deterministic
string conditions they denote; `\x7b`/`\x7d` denote the brace characters. -/

inductive Severity where
  | error
  | warning
  deriving DecidableEq, Repr

structure LintError where
  line : Nat
  column : Nat
  message : String
  severity : Severity
  deriving DecidableEq, Repr

structure LintResult where
  valid : Bool
  errors : List LintError
  deriving DecidableEq, Repr

/-- An entry of `bracketStack`; `line`/`col` are the 1-based position at
which the opener was pushed. -/
structure OpenBr where
  ch : Char
  line : Nat
  col : Nat
  deriving DecidableEq, Repr

def openBrace : Char := Char.ofNat 123

def closeBrace : Char := Char.ofNat 125

/-- key test of the `matchingBrackets` record. -/
def isOpen (c : Char) : Bool :=
  c = '(' || c = '[' || c = openBrace

/-- key test of the `closingBrackets` record. -/
def isClose (c : Char) : Bool :=
  c = ')' || c = ']' || c = closeBrace

/-- `matchingBrackets[c]` for an opener. -/
def matchingClose (c : Char) : Char :=
  if c = '(' then ')' else if c = '[' then ']' else closeBrace

/-- `closingBrackets[c]` for a closer. -/
def matchingOpen (c : Char) : Char :=
  if c = ')' then '(' else if c = ']' then '[' else openBrace

def unexpectedClosingMsg (ch : Char) : String :=
  "Unexpected closing \x27" ++ ch.toString ++ "\x27 without matching opening bracket"

def mismatchMsg (top : OpenBr) (ch : Char) : String :=
  "Mismatched brackets: expected \x27" ++ (matchingClose top.ch).toString ++
  "\x27 to close \x27" ++ top.ch.toString ++ "\x27 from line " ++ toString top.line ++
  ", but found \x27" ++ ch.toString ++ "\x27"

def unclosedOpenMsg (ch : Char) : String :=
  "Unclosed \x27" ++ ch.toString ++ "\x27 - missing \x27" ++ (matchingClose ch).toString ++ "\x27"

/-- The mutable scan state shared by the character loop across lines. -/
structure LintSt where
  inComment : Bool
  inString : Bool
  stack : List OpenBr
  deriving DecidableEq, Repr

/-- The character loop of one line (`while (col < line.length)`), carrying
the previous character of the original line for the `line[col - 1]` escape
check.  Errors are produced in push order; all of them have severity
`error`. -/
def lintLineGo (lineNum : Nat) : LintSt → Nat → Option Char → List Char → LintSt × List LintError
  | st, _, _, [] => (st, [])
  | st, col, prev, [ch] =>
    -- last column of the line: `line[col + 1]` is `undefined`
    if st.inString = false ∧ ch = '/' ∧ (none : Option Char) = some '*' then
      lintLineGo lineNum { st with inComment := true } (col + 2) (some '*') []
    else if st.inComment = true ∧ ch = '*' ∧ (none : Option Char) = some '/' then
      lintLineGo lineNum { st with inComment := false } (col + 2) (some '/') []
    else if st.inComment = true then
      lintLineGo lineNum st (col + 1) (some ch) []
    else if st.inString = false ∧ ch = '/' ∧ (none : Option Char) = some '/' then
      (st, [])
    else if ch = '"' ∧ (col = 0 ∨ prev ≠ some '\\') then
      lintLineGo lineNum { st with inString := !st.inString } (col + 1) (some ch) []
    else if st.inString = true then
      lintLineGo lineNum st (col + 1) (some ch) []
    else if isOpen ch = true then
      lintLineGo lineNum { st with stack := ⟨ch, lineNum + 1, col + 1⟩ :: st.stack } (col + 1) (some ch) []
    else if isClose ch = true then
      match st.stack with
      | [] =>
        let r := lintLineGo lineNum st (col + 1) (some ch) []
        (r.1, ⟨lineNum + 1, col + 1, unexpectedClosingMsg ch, .error⟩ :: r.2)
      | top :: tl =>
        if top.ch ≠ matchingOpen ch then
          let r := lintLineGo lineNum { st with stack := tl } (col + 1) (some ch) []
          (r.1, ⟨lineNum + 1, col + 1, mismatchMsg top ch, .error⟩ :: r.2)
        else
          lintLineGo lineNum { st with stack := tl } (col + 1) (some ch) []
    else
      lintLineGo lineNum st (col + 1) (some ch) []
  | st, col, prev, ch :: ch2 :: rest =>
    if st.inString = false ∧ ch = '/' ∧ (some ch2 : Option Char) = some '*' then
      lintLineGo lineNum { st with inComment := true } (col + 2) (some '*') rest
    else if st.inComment = true ∧ ch = '*' ∧ (some ch2 : Option Char) = some '/' then
      lintLineGo lineNum { st with inComment := false } (col + 2) (some '/') rest
    else if st.inComment = true then
      lintLineGo lineNum st (col + 1) (some ch) (ch2 :: rest)
    else if st.inString = false ∧ ch = '/' ∧ (some ch2 : Option Char) = some '/' then
      (st, [])
    else if ch = '"' ∧ (col = 0 ∨ prev ≠ some '\\') then
      lintLineGo lineNum { st with inString := !st.inString } (col + 1) (some ch) (ch2 :: rest)
    else if st.inString = true then
      lintLineGo lineNum st (col + 1) (some ch) (ch2 :: rest)
    else if isOpen ch = true then
      lintLineGo lineNum { st with stack := ⟨ch, lineNum + 1, col + 1⟩ :: st.stack } (col + 1) (some ch) (ch2 :: rest)
    else if isClose ch = true then
      match st.stack with
      | [] =>
        let r := lintLineGo lineNum st (col + 1) (some ch) (ch2 :: rest)
        (r.1, ⟨lineNum + 1, col + 1, unexpectedClosingMsg ch, .error⟩ :: r.2)
      | top :: tl =>
        if top.ch ≠ matchingOpen ch then
          let r := lintLineGo lineNum { st with stack := tl } (col + 1) (some ch) (ch2 :: rest)
          (r.1, ⟨lineNum + 1, col + 1, mismatchMsg top ch, .error⟩ :: r.2)
        else
          lintLineGo lineNum { st with stack := tl } (col + 1) (some ch) (ch2 :: rest)
    else
      lintLineGo lineNum st (col + 1) (some ch) (ch2 :: rest)

/-- `\w` of the heuristic regexes. -/
def jsWordChar (c : Char) : Bool :=
  ('a' ≤ c && c ≤ 'z') || ('A' ≤ c && c ≤ 'Z') || ('0' ≤ c && c ≤ '9') || c = '_'

/-- Condition denoted by the assignment-without-semicolon regex
`^\s*\w+\s*=\s*.+[^;\x7b\x7d\s]\s*$`: leading whitespace, a nonempty word,
optional whitespace, `=`, and a remainder that (after stripping trailing
whitespace) has at least two characters and does not end in `;`, `\x7b`
or `\x7d`. -/
def pattern1Test (line : String) : Bool :=
  let cs1 := line.toList.dropWhile jsWhite
  let w := cs1.takeWhile jsWordChar
  let cs3 := (cs1.dropWhile jsWordChar).dropWhile jsWhite
  match w, cs3 with
  | [], _ => false
  | _ :: _, c :: rest =>
      if c = '=' then
        let r := (rest.reverse.dropWhile jsWhite).reverse
        decide (2 ≤ r.length) &&
          (match r.getLast? with
           | some lastC => !(lastC = ';' || lastC = openBrace || lastC = closeBrace)
           | none => false)
      else false
  | _ :: _, [] => false

def primitiveKeywords : List String :=
  ["cube", "sphere", "cylinder", "circle", "square", "polygon", "text"]

/-- Condition denoted by the primitive-call regex
`^\s*(cube|sphere|cylinder|circle|square|polygon|text)\s*\([^)]*\)\s*[^;\x7b\x7d\s]*$`:
leading whitespace, one of the keywords, optional whitespace, a
parenthesized group with no `)` inside, then optional whitespace followed
only by characters that are not whitespace, `;`, `\x7b` or `\x7d`. -/
def pattern2Test (line : String) : Bool :=
  let cs := line.toList.dropWhile jsWhite
  primitiveKeywords.any fun kw =>
    let kl := kw.toList
    if cs.take kl.length = kl then
      match (cs.drop kl.length).dropWhile jsWhite with
      | '(' :: rest2 =>
          let inside := rest2.takeWhile (fun c => !(c = ')'))
          (match rest2.drop inside.length with
           | ')' :: rem =>
               (rem.dropWhile jsWhite).all fun c =>
                 !(jsWhite c || c = ';' || c = openBrace || c = closeBrace)
           | _ => false)
      | _ => false
    else false

/-- The continuation lookahead: the first following line with nonempty
trimmed text begins with an operator or a dot. -/
def isContinuationAfter (rest : List String) : Bool :=
  match rest.find? (fun l => jsTrim l ≠ "") with
  | none => false
  | some l =>
    match (jsTrim l).toList with
    | [] => false
    | c :: _ => c = '+' || c = '-' || c = '*' || c = '/' || c = '?' || c = ':' || c = '.'

/-- The per-line missing-semicolon heuristic; every entry it produces has
severity `warning`. -/
def heurWarnings (line : String) (lineNum : Nat) (rest : List String) : List LintError :=
  let trimmedLine := jsTrim line
  if trimmedLine ≠ "" ∧ ¬ strStarts trimmedLine "//" then
    let hasBrace := line.toList.any (fun c => c = openBrace)
    let isCont := isContinuationAfter rest
    let w : LintError := ⟨lineNum + 1, line.length, "Statement may be missing a semicolon", .warning⟩
    (if pattern1Test line = true ∧ hasBrace = false ∧ isCont = false then [w] else []) ++
    (if pattern2Test line = true ∧ hasBrace = false ∧ isCont = false then [w] else [])
  else []

/-- The outer loop over lines: character scan, unclosed-string check (which
resets `inString`), then the heuristic block. -/
def lintLines : LintSt → Nat → List String → LintSt × List LintError
  | st, _, [] => (st, [])
  | st, n, line :: rest =>
      let r1 := lintLineGo n st 0 none line.toList
      let strState :=
        if r1.1.inString = true then
          ({ r1.1 with inString := false },
           [(⟨n + 1, 1, "Unclosed string literal", .error⟩ : LintError)])
        else (r1.1, ([] : List LintError))
      let warns := heurWarnings line n rest
      let rr := lintLines strState.1 (n + 1) rest
      (rr.1, r1.2 ++ strState.2 ++ warns ++ rr.2)

/-- `lintOpenSCAD`. -/
def lintOpenSCAD (code : String) : LintResult :=
  let lines := splitLines code
  let r := lintLines ⟨false, false, []⟩ 0 lines
  let unclosedErrs := r.1.stack.reverse.map
    (fun b => (⟨b.line, b.col, unclosedOpenMsg b.ch, .error⟩ : LintError))
  let commentErr :=
    if r.1.inComment = true then
      [(⟨lines.length, 1, "Unclosed block comment (missing */)", .error⟩ : LintError)]
    else []
  let errors := r.2 ++ unclosedErrs ++ commentErr
  { valid := (errors.filter (fun e => e.severity = Severity.error)).length = 0,
    errors := errors }

/-- `formatLintErrors`. -/
def severityUpper : Severity → String
  | .error => "ERROR"
  | .warning => "WARNING"

def joinNl : List String → String
  | [] => ""
  | [s] => s
  | s :: rest => s ++ "\n" ++ joinNl rest

def formatLintErrors (errors : List LintError) : String :=
  if errors.length = 0 then ""
  else
    joinNl (errors.map fun e =>
      "Line " ++ toString e.line ++ ":" ++ toString e.column ++ " [" ++
      severityUpper e.severity ++ "]: " ++ e.message)

/-! ## Specification-side bracket scan

`specScan` formalises, in the spec's words, what it means for a source
text to contain delimiter anomalies: scanning the text outside strings and
comments, it records every stray closer (a closer met while no opener is
pending) with its 1-based position, and counts mismatched closers,
unterminated strings and leftover open delimiters.  "A single stray
unmatched closing bracket" then means: exactly one stray event and no
other anomaly.  It is deliberately a second definition, independent of
`lintOpenSCAD`, to be compared with it. -/

inductive SEv where
  | stray (line col : Nat) (ch : Char)
  | mism
  | strEnd
  deriving DecidableEq, Repr

/-- Character scan of one line for the spec-side summary; the traversal
discipline (comment/string/escape handling) is the one the spec prescribes
for the linter, producing events instead of diagnostics. -/
def specLineGo (lineNum : Nat) : LintSt → Nat → Option Char → List Char → LintSt × List SEv
  | st, _, _, [] => (st, [])
  | st, col, prev, [ch] =>
    if st.inString = false ∧ ch = '/' ∧ (none : Option Char) = some '*' then
      specLineGo lineNum { st with inComment := true } (col + 2) (some '*') []
    else if st.inComment = true ∧ ch = '*' ∧ (none : Option Char) = some '/' then
      specLineGo lineNum { st with inComment := false } (col + 2) (some '/') []
    else if st.inComment = true then
      specLineGo lineNum st (col + 1) (some ch) []
    else if st.inString = false ∧ ch = '/' ∧ (none : Option Char) = some '/' then
      (st, [])
    else if ch = '"' ∧ (col = 0 ∨ prev ≠ some '\\') then
      specLineGo lineNum { st with inString := !st.inString } (col + 1) (some ch) []
    else if st.inString = true then
      specLineGo lineNum st (col + 1) (some ch) []
    else if isOpen ch = true then
      specLineGo lineNum { st with stack := ⟨ch, lineNum + 1, col + 1⟩ :: st.stack } (col + 1) (some ch) []
    else if isClose ch = true then
      match st.stack with
      | [] =>
        let r := specLineGo lineNum st (col + 1) (some ch) []
        (r.1, .stray (lineNum + 1) (col + 1) ch :: r.2)
      | top :: tl =>
        if top.ch ≠ matchingOpen ch then
          let r := specLineGo lineNum { st with stack := tl } (col + 1) (some ch) []
          (r.1, .mism :: r.2)
        else
          specLineGo lineNum { st with stack := tl } (col + 1) (some ch) []
    else
      specLineGo lineNum st (col + 1) (some ch) []
  | st, col, prev, ch :: ch2 :: rest =>
    if st.inString = false ∧ ch = '/' ∧ (some ch2 : Option Char) = some '*' then
      specLineGo lineNum { st with inComment := true } (col + 2) (some '*') rest
    else if st.inComment = true ∧ ch = '*' ∧ (some ch2 : Option Char) = some '/' then
      specLineGo lineNum { st with inComment := false } (col + 2) (some '/') rest
    else if st.inComment = true then
      specLineGo lineNum st (col + 1) (some ch) (ch2 :: rest)
    else if st.inString = false ∧ ch = '/' ∧ (some ch2 : Option Char) = some '/' then
      (st, [])
    else if ch = '"' ∧ (col = 0 ∨ prev ≠ some '\\') then
      specLineGo lineNum { st with inString := !st.inString } (col + 1) (some ch) (ch2 :: rest)
    else if st.inString = true then
      specLineGo lineNum st (col + 1) (some ch) (ch2 :: rest)
    else if isOpen ch = true then
      specLineGo lineNum { st with stack := ⟨ch, lineNum + 1, col + 1⟩ :: st.stack } (col + 1) (some ch) (ch2 :: rest)
    else if isClose ch = true then
      match st.stack with
      | [] =>
        let r := specLineGo lineNum st (col + 1) (some ch) (ch2 :: rest)
        (r.1, .stray (lineNum + 1) (col + 1) ch :: r.2)
      | top :: tl =>
        if top.ch ≠ matchingOpen ch then
          let r := specLineGo lineNum { st with stack := tl } (col + 1) (some ch) (ch2 :: rest)
          (r.1, .mism :: r.2)
        else
          specLineGo lineNum { st with stack := tl } (col + 1) (some ch) (ch2 :: rest)
    else
      specLineGo lineNum st (col + 1) (some ch) (ch2 :: rest)

def specLines : LintSt → Nat → List String → LintSt × List SEv
  | st, _, [] => (st, [])
  | st, n, line :: rest =>
      let r1 := specLineGo n st 0 none line.toList
      let strState :=
        if r1.1.inString = true then
          ({ r1.1 with inString := false }, [SEv.strEnd])
        else (r1.1, ([] : List SEv))
      let rr := specLines strState.1 (n + 1) rest
      (rr.1, r1.2 ++ strState.2 ++ rr.2)

structure ScanSummary where
  strays : List (Nat × Nat × Char)
  mismCount : Nat
  strEndCount : Nat
  leftOpen : List OpenBr
  inComment : Bool
  deriving DecidableEq, Repr

def specScan (code : String) : ScanSummary :=
  let r := specLines ⟨false, false, []⟩ 0 (splitLines code)
  { strays := r.2.filterMap (fun e => match e with
      | .stray l c ch => some (l, c, ch)
      | _ => none),
    mismCount := (r.2.filter (fun e => e = SEv.mism)).length,
    strEndCount := (r.2.filter (fun e => e = SEv.strEnd)).length,
    leftOpen := r.1.stack,
    inComment := r.1.inComment }

/-- The spec's hypothesis: the text contains a single stray unmatched
closing bracket `ch` at 1-based position (`l`, `c`) — outside strings and
comments — and no other delimiter anomaly. -/
def specSingleStrayCloser (code : String) (l c : Nat) (ch : Char) : Prop :=
  specScan code = ⟨[(l, c, ch)], 0, 0, [], false⟩

/-- The `Error`-severity diagnostics of a lint report. -/
def errFilter (l : List LintError) : List LintError :=
  l.filter fun e => e.severity = Severity.error

/-- How a spec-side scan event corresponds to a linter diagnostic: a stray
closer corresponds to exactly the diagnostic the linter emits for it; the
other events correspond to some `Error`-severity diagnostic. -/
def evRel : SEv → LintError → Prop
  | .stray l c ch, e => e = ⟨l, c, unexpectedClosingMsg ch, .error⟩
  | .mism, e => e.severity = Severity.error
  | .strEnd, e => e.severity = Severity.error

instance (code : String) (l c : Nat) (ch : Char) :
    Decidable (specSingleStrayCloser code l c ch) := by
  unfold specSingleStrayCloser; infer_instance

/-! ## Worker engine operations (src/lib/openscad.worker.ts)

One engine call is parameterised by an `EngineBeh`: whether lazy
initialisation succeeds, what `callMain` does (return normally, throw a
numeric exit status, throw an Emscripten `ExitStatus` object, or throw some
other error), which bytes the engine leaves in the output scratch file, and
the diagnostic lines it prints on the error channel during the call.  The
worker's virtual filesystem is the record of the three scratch slots. -/

/-- A value thrown by `callMain`. -/
inductive Thrown where
  | num (n : Int)
  | exitStatusV (n : Int)
  | otherErr (msg : String)
  deriving DecidableEq, Repr

structure EngineBeh where
  initOk : Bool := true
  initErrMsg : String := "failed to load"
  callMainRet : Int := 0
  callMainThrow : Option Thrown := none
  producedOutput : Option (List Nat) := none
  stderrLines : List String := []
  deriving DecidableEq, Repr

structure WorkerFS where
  inputScad : Option String := none
  outputStl : Option (List Nat) := none
  validateScad : Option String := none
  deriving DecidableEq, Repr

/-- `String.prototype.includes`. -/
def containsSub (s pat : String) : Bool :=
  (List.range (s.toList.length + 1)).any fun i =>
    (s.toList.drop i).take pat.toList.length = pat.toList

/-- `Array.prototype.slice(-5)`. -/
def lastN (n : Nat) (l : List String) : List String :=
  l.drop (l.length - n)

/-- Stand-in for the JS `RangeError` message thrown out of `parseSTL`. -/
def rangeErrorMessage : String :=
  "Offset is outside the bounds of the DataView"

/-- What `renderScadToSTL` posts back. -/
inductive RenderPost where
  | renderResult (mesh : STLMesh) (logs : List String) (byteLength : Nat)
  | renderError (msg : String) (logs : List String)
  deriving DecidableEq, Repr

structure RenderExec where
  post : RenderPost
  abortPosted : Bool
  fs : WorkerFS
  deriving DecidableEq, Repr

/-- Whether the `catch` around `callMain` posts an `abort` message: the
thrown value is not an exit status and its message is memory-flavoured. -/
def workerAbortPosted (beh : EngineBeh) : Bool :=
  match beh.callMainThrow with
  | some (.otherErr m) =>
      containsSub m "memory" || containsSub m "bad_alloc" || containsSub m "abort"
  | _ => false

/-- The message thrown when the output file cannot be read: error-looking
stderr lines if any, else the last five stderr lines, else a fixed text. -/
def workerNoOutputMsg (stderr : List String) : String :=
  if stderr.length > 0 then
    if (stderr.filter fun l =>
          containsSub l "ERROR" || containsSub l "error" ||
          containsSub l "Warning:" || containsSub l "syntax error").length > 0 then
      joinNl (stderr.filter fun l =>
        containsSub l "ERROR" || containsSub l "error" ||
        containsSub l "Warning:" || containsSub l "syntax error")
    else joinNl (lastN 5 stderr)
  else "No output generated"

/-- Worker `renderScadToSTL` (openscad.worker.ts lines 47-141): reset the
stderr collector, unlink both scratch files, write the input, call the
engine entry point swallowing any thrown value (posting `abort` for
memory-flavoured errors), then decide success purely by reading the output
artifact; only the success path unlinks the scratch files at the end, and
any thrown error is converted to a `render-error` post. -/
def workerRenderScadToSTL (beh : EngineBeh) (code : String) (fs0 : WorkerFS) : RenderExec :=
  if beh.initOk = false then
    { post := .renderError beh.initErrMsg [], abortPosted := false, fs := fs0 }
  else
    -- cleanup old files, write the input, run callMain (engine side effects):
    -- the scratch slots now hold the fresh input and whatever the engine produced
    match beh.producedOutput with
    | none =>
        { post := .renderError (workerNoOutputMsg beh.stderrLines) beh.stderrLines,
          abortPosted := workerAbortPosted beh,
          fs := { fs0 with inputScad := some code, outputStl := none } }
    | some stlBytes =>
        if stlBytes.length = 0 then
          { post := .renderError "Output file exists but is empty" beh.stderrLines,
            abortPosted := workerAbortPosted beh,
            fs := { fs0 with inputScad := some code, outputStl := some stlBytes } }
        else
          match parseSTL stlBytes with
          | .error _ =>
              { post := .renderError rangeErrorMessage beh.stderrLines,
                abortPosted := workerAbortPosted beh,
                fs := { fs0 with inputScad := some code, outputStl := some stlBytes } }
          | .ok mesh =>
              if mesh.vertices.length = 0 then
                { post := .renderError "Generated STL has no geometry" beh.stderrLines,
                  abortPosted := workerAbortPosted beh,
                  fs := { fs0 with inputScad := some code, outputStl := some stlBytes } }
              else
                { post := .renderResult mesh beh.stderrLines stlBytes.length,
                  abortPosted := workerAbortPosted beh,
                  fs := { fs0 with inputScad := none, outputStl := none } }

/-- What `validateCode` posts back. -/
structure ValidatePost where
  valid : Bool
  errors : List String
  deriving DecidableEq, Repr

/-- The posted validation record: the flag computed so far, further
required to see no collected line containing `ERROR` or `error`. -/
def workerValidPost (base : Bool) (lines : List String) : ValidatePost :=
  { valid := base &&
      decide ((lines.filter
        (fun l => containsSub l "ERROR" || containsSub l "error")).length = 0),
    errors := lines }

/-- Worker `validateCode` (openscad.worker.ts lines 143-188): run the
engine in preview mode against `/dev/null`; a thrown numeric value or
`ExitStatus` sets `valid` to `status === 0`, any other thrown value forces
`valid = false` and is pushed onto the collected stderr; the posted flag
additionally requires that no collected line contains `ERROR` or `error`. -/
def workerValidateCode (beh : EngineBeh) (code : String) (fs0 : WorkerFS) : ValidatePost × WorkerFS :=
  if beh.initOk = false then
    ({ valid := false, errors := [beh.initErrMsg] }, fs0)
  else
    -- unlink and write /validate.scad, run callMain in preview mode
    -- (collecting stderr and classifying any thrown value), unlink again
    (match beh.callMainThrow with
     | none => workerValidPost true beh.stderrLines
     | some (.num n) => workerValidPost (decide (n = 0)) beh.stderrLines
     | some (.exitStatusV n) => workerValidPost (decide (n = 0)) beh.stderrLines
     | some (.otherErr m) => workerValidPost false (beh.stderrLines ++ [m]),
     { fs0 with validateScad := none })

/-! ## Service engine operations (openscad-service, the `OpenSCADError`
variant): `renderScadToSTL` with a `finally` block that always unlinks
both scratch files, and `validateScadCode` whose `valid` requires a zero
exit code and an empty captured-error list. -/

/-- The rejection value of the service `renderScadToSTL`. -/
inductive SvcErr where
  | scadErr (msg : String) (logs : List String)
  | jsErr (msg : String)
  deriving DecidableEq, Repr

/-- The service variant's effective exit code: the value `callMain`
returns, the thrown value when it is a number, else 1. -/
def svcExitCode (beh : EngineBeh) : Int :=
  match beh.callMainThrow with
  | none => beh.callMainRet
  | some (.num n) => n
  | some _ => 1

/-- The `try` body of the service `renderScadToSTL`. -/
def svcRenderBody (beh : EngineBeh) (logs : List String) : Except SvcErr STLMesh :=
  if svcExitCode beh ≠ 0 then
    .error (.scadErr
      (if logs.length > 0 then joinNl logs
       else "OpenSCAD exited with code " ++ toString (svcExitCode beh)) logs)
  else
    match beh.producedOutput with
    | none =>
        .error (.scadErr
          (if logs.length > 0 then joinNl logs
           else "No output generated. The model may be empty or have errors.") logs)
    | some outBytes =>
        if decodeBytes outBytes = "" ∨ (jsTrim (decodeBytes outBytes)).length < 50 then
          .error (.scadErr "No geometry generated. Check your OpenSCAD code." logs)
        else
          match parseSTL (encodeStr (decodeBytes outBytes)) with
          | .error _ => .error (.jsErr rangeErrorMessage)
          | .ok mesh =>
              if mesh.vertices.length = 0 then
                .error (.scadErr "Generated STL has no geometry." logs)
              else .ok mesh

/-- Service `renderScadToSTL` (the variant with the guaranteed-cleanup
`finally`): trusts the exit code, reads the artifact as text, requires at
least 50 characters after trimming and a nonempty decoded mesh, and —
whatever the `try` body did — removes both scratch files in the `finally`
before the call settles. -/
def svcRenderScadToSTL (beh : EngineBeh) (code : String) (fs0 : WorkerFS) :
    Except SvcErr STLMesh × WorkerFS :=
  if beh.initOk = false then (.error (.jsErr beh.initErrMsg), fs0)
  else
    -- try: write the input, run callMain, read and check the artifact;
    -- finally: restore printErr, unlink both scratch files
    (svcRenderBody beh beh.stderrLines,
     { fs0 with inputScad := none, outputStl := none })

/-- Service `validateScadCode`: `valid` iff the effective exit code is `0`
and the captured error list is empty. -/
def svcValidateScadCode (beh : EngineBeh) (code : String) (fs0 : WorkerFS) :
    ValidatePost × WorkerFS :=
  if beh.initOk = false then ({ valid := false, errors := [beh.initErrMsg] }, fs0)
  else
    -- write /validate.scad, run callMain in preview mode, unlink it again
    ({ valid := decide (svcExitCode beh = 0) && decide (beh.stderrLines = []),
       errors := beh.stderrLines },
     { fs0 with validateScad := none })

/-- The effective exit signal of one worker call being zero-equivalent:
initialisation succeeded and `callMain` either returned or threw a zero
status. -/
def wExitOk (beh : EngineBeh) : Bool :=
  beh.initOk &&
    (match beh.callMainThrow with
     | none => true
     | some (.num n) => decide (n = 0)
     | some (.exitStatusV n) => decide (n = 0)
     | some (.otherErr _) => false)

/-! ## The worker message queue (openscad.worker.ts lines 8-15, 190-225)

`self.onmessage` appends each requested operation to the promise chain
`opQueue` as `opQueue = opQueue.then(op).catch(handler)`.  The chain is
embedded syntactically (`PChain`) and executed under the standard promise
semantics: `then` runs its operation only if the previous chain resolved,
`catch` converts a rejected chain back to a resolved one.  An operation's
runtime behaviour (duration in abstract time steps, and whether it
rejects) is a parameter indexed by execution position. -/

inductive WOp where
  | initOp
  | renderOp (code id : String)
  | validateOp (code id : String)
  deriving DecidableEq, Repr

/-- The worker message union type. -/
inductive WMessage where
  | init
  | render (code id : String)
  | validate (code id : String)
  deriving DecidableEq, Repr

def opOf : WMessage → WOp
  | .init => .initOp
  | .render c i => .renderOp c i
  | .validate c i => .validateOp c i

/-- A promise chain built from `Promise.resolve()` by `.then(op)` and
`.catch(handler)`. -/
inductive PChain where
  | base
  | thenOp (c : PChain) (op : WOp)
  | catchAll (c : PChain)
  deriving DecidableEq, Repr

/-- The `self.onmessage` handler: every message alike reassigns
`opQueue = opQueue.then(operation).catch(...)`. -/
def workerOnMessage (q : PChain) (m : WMessage) : PChain :=
  match m with
  | .init => .catchAll (.thenOp q .initOp)
  | .render c i => .catchAll (.thenOp q (.renderOp c i))
  | .validate c i => .catchAll (.thenOp q (.validateOp c i))

/-- Result of executing a promise chain: whether the chain value is
resolved, the trace of executed operations with their (start, end) times,
and the time at which the chain settled. -/
structure ExecRes where
  resolvedOk : Bool
  trace : List (WOp × Nat × Nat)
  settleTime : Nat
  deriving Repr

/-- Promise-chain execution.  `beh n` gives the duration and the
rejects-flag of the `n`-th operation that actually runs.  A `thenOp` whose
predecessor rejected is skipped (its rejection propagates); `catchAll`
always yields a resolved chain. -/
def execChain (beh : Nat → Nat × Bool) : PChain → ExecRes
  | .base => ⟨true, [], 0⟩
  | .thenOp c op =>
      let r := execChain beh c
      if r.resolvedOk then
        let d := (beh r.trace.length).1
        let fails := (beh r.trace.length).2
        ⟨!fails, r.trace ++ [(op, r.settleTime, r.settleTime + d)], r.settleTime + d⟩
      else ⟨false, r.trace, r.settleTime⟩
  | .catchAll c =>
      let r := execChain beh c
      ⟨true, r.trace, r.settleTime⟩

/-! ## Render controller (`useOpenScad`)

The hook's `render` is an async procedure; it is split at its single
suspension point into a synchronous prefix (`renderSyncCtrl`, which also
reports whether a compile was submitted to the engine) and a continuation
(`renderAwaitCtrl`) applied to the settled outcome of the engine call.
The engine-output pattern parser `parseOpenSCADErrors` is kept abstract
(parameter `pe`): none of the verified properties depend on it. -/

structure CtrlState where
  mesh : Option STLMesh := none
  isRendering : Bool := false
  error : Option String := none
  lintErrors : List LintError := []
  logs : List String := []
  deriving DecidableEq, Repr

/-- Outcome of the awaited `renderScadToSTL` call as seen by the hook. -/
inductive CtrlOutcome where
  | okMesh (m : STLMesh)
  | errScad (msg : String) (lgs : List String)
  | errOther (msg : String)
  deriving DecidableEq, Repr

/-- Synchronous prefix of `render` (part of the hook, lines 78-101):
empty-source early return, linting, lint-error early return, else mark
rendering and submit the compile (second component: was a compile
submitted?). -/
def renderSyncCtrl (s : CtrlState) (code : String) : CtrlState × Bool :=
  if jsTrim code = "" then
    ({ s with mesh := none, error := none, lintErrors := [] }, false)
  else
    let lintResult := lintOpenSCAD code
    let s1 := { s with lintErrors := lintResult.errors }
    if lintResult.errors.any (fun e => e.severity = Severity.error) then
      ({ s1 with
          error := some (formatLintErrors
            (lintResult.errors.filter (fun e => e.severity = Severity.error))),
          mesh := none,
          isRendering := false }, false)
    else
      ({ s1 with isRendering := true, error := none }, true)

/-- Continuation of `render` after the engine call settles (lines
102-123), including the `finally` that clears `isRendering`. -/
def renderAwaitCtrl (pe : String → List LintError) (s : CtrlState) (out : CtrlOutcome) : CtrlState :=
  let s1 :=
    match out with
    | .okMesh m => { s with mesh := some m, error := none, lintErrors := [], logs := [] }
    | .errScad msg lgs =>
        let s2 := { s with error := some msg, logs := lgs }
        if lgs.length > 0 then
          { s2 with lintErrors := s2.lintErrors ++ pe (joinNl lgs) }
        else s2
    | .errOther msg => { s with error := some msg }
  { s1 with isRendering := false }

/-- The interleaving in which compile A is issued, compile B is issued
while A is still in flight, B's result settles first and A's settles last:
both synchronous prefixes run in issue order, then the continuations run
in settle order (B, then A). -/
def twoOverlappingRenders (pe : String → List LintError) (s0 : CtrlState)
    (codeA codeB : String) (outA outB : CtrlOutcome) : CtrlState :=
  let s1 := (renderSyncCtrl s0 codeA).1
  let s2 := (renderSyncCtrl s1 codeB).1
  let s3 := renderAwaitCtrl pe s2 outB
  renderAwaitCtrl pe s3 outA

/-! ## Debounced rendering (`debouncedRender`, identical in both hook
variants): clear any pending timer, skip if the text equals the last
recorded text, else record it and schedule a compile of it. -/

structure DebState where
  pending : Option String := none
  lastCode : String := ""
  rendering : Bool := false
  deriving DecidableEq, Repr

def debouncedRender (s : DebState) (code : String) : DebState :=
  -- clearTimeout(timeoutRef.current)
  let s1 := { s with pending := none }
  if code = s1.lastCode then s1
  else { pending := some code, lastCode := code, rendering := true }

/-- The compiles that fire once the debounce window finally elapses after
a burst of calls: the pending scheduled compile, if any. -/
def firedCompiles (init : DebState) (calls : List String) : List String :=
  ((calls.foldl debouncedRender init).pending).toList

/-- Each call of a burst differs from the text recorded before it. -/
def chainDistinct : String → List String → Prop
  | _, [] => True
  | prevCode, c :: rest => c ≠ prevCode ∧ chainDistinct c rest

/-! ## Auxiliary spec-side measures and concrete inputs -/

/-- Number of `vertex` data lines of a text artifact (trimmed lines that
reach the `vertex` branch of the text path). -/
def countVertexLines (lines : List String) : Nat :=
  (lines.filter fun l =>
    let t := jsTrim l
    !strStarts t "facet normal" && strStarts t "vertex").length

/-- A minimal well-formed binary artifact: zero-filled 80-byte header,
declared triangle count 1, one 50-byte zero triangle record (134 bytes). -/
def bin134 : List Nat :=
  List.replicate 80 0 ++ [1, 0, 0, 0] ++ List.replicate 50 0

/-- The mesh `bin134` decodes to. -/
def bin134Mesh : STLMesh :=
  ⟨List.replicate 9 (.bits 0), List.replicate 9 (.bits 0)⟩

/-- A text artifact of more than 84 bytes with a single `vertex` line
(padded with a trailing dot line so the size check reads printable bytes
at offsets 80..83). -/
def asciiOneVertex : List Nat :=
  encodeStr ("solid t\nfacet normal 0 0 1\nvertex 0 0 0\nendsolid t\n....................................")

/-- The mesh `asciiOneVertex` decodes to: one vertex triple, so the flat
arrays have length 3, not a multiple of 9. -/
def asciiOneVertexMesh : STLMesh :=
  ⟨[.tok (some "0"), .tok (some "0"), .tok (some "0")],
   [.tok (some "0"), .tok (some "0"), .tok (some "1")]⟩

/-- A syntactically plausible but short (29-byte) text artifact. -/
def shortSolid : List Nat :=
  encodeStr "solid a\nvertex 1 2 3\nendsolid"

/-- Engine behaviour of concrete scenario 4: `callMain` throws the numeric
exit status 1 yet leaves a valid non-empty artifact. -/
def behExitButOutput : EngineBeh :=
  { callMainThrow := some (.num 1), producedOutput := some bin134 }

/-- Engine behaviour where `callMain` throws a non-`ExitStatus` error and
no artifact is produced. -/
def behThrowNoOutput : EngineBeh :=
  { callMainThrow := some (.otherErr "boom"), producedOutput := none }

/-- Engine behaviour where the call succeeds but prints one advisory
diagnostic line that contains neither `ERROR` nor `error`. -/
def behWarnOnly : EngineBeh :=
  { callMainThrow := none, stderrLines := ["Warning: advisory only"] }

/-- Two distinct meshes standing for the results of two compiles. -/
def meshA : STLMesh := ⟨List.replicate 9 (.lit 1), List.replicate 9 (.lit 1)⟩

def meshB : STLMesh := ⟨List.replicate 9 (.lit 2), List.replicate 9 (.lit 2)⟩

/-! ## Lemmas about the mesh decoder -/

instance exceptDecEq {ε α : Type} [DecidableEq ε] [DecidableEq α] :
    DecidableEq (Except ε α) := fun x y =>
  match x, y with
  | .ok a, .ok b => if h : a = b then .isTrue (by rw [h]) else .isFalse (by simp [h])
  | .error a, .error b => if h : a = b then .isTrue (by rw [h]) else .isFalse (by simp [h])
  | .ok _, .error _ => .isFalse (by simp)
  | .error _, .ok _ => .isFalse (by simp)

theorem exceptBind_ok {α β ε : Type} {x : Except ε α} {f : α → Except ε β} {b : β}
    (h : (x >>= f) = .ok b) : ∃ a, x = .ok a ∧ f a = .ok b := by
  cases x with
  | error e => simp [Bind.bind, Except.bind] at h
  | ok a => exact ⟨a, rfl, by simpa [Bind.bind, Except.bind] using h⟩

theorem getUint32LE_err {b : List Nat} {off : Nat} (h : b.length < off + 4) :
    getUint32LE b off = .error .rangeError := by
  simp [getUint32LE]; omega

theorem binTriangles_ok_len {b : List Nat} :
    ∀ (i off : Nat) (vs ns : List Scalar), binTriangles b i off = .ok (vs, ns) →
      vs.length = 9 * i ∧ ns.length = 9 * i := by
  intro i
  induction i with
  | zero =>
      intro off vs ns h
      simp [binTriangles] at h
      obtain ⟨h1, h2⟩ := h
      subst h1; subst h2; simp
  | succ n ih =>
      intro off vs ns h
      simp only [binTriangles] at h
      obtain ⟨x1, h1, h⟩ := exceptBind_ok h
      obtain ⟨x2, h2, h⟩ := exceptBind_ok h
      obtain ⟨x3, h3, h⟩ := exceptBind_ok h
      obtain ⟨x4, h4, h⟩ := exceptBind_ok h
      obtain ⟨x5, h5, h⟩ := exceptBind_ok h
      obtain ⟨x6, h6, h⟩ := exceptBind_ok h
      obtain ⟨x7, h7, h⟩ := exceptBind_ok h
      obtain ⟨x8, h8, h⟩ := exceptBind_ok h
      obtain ⟨x9, h9, h⟩ := exceptBind_ok h
      obtain ⟨x10, h10, h⟩ := exceptBind_ok h
      obtain ⟨x11, h11, h⟩ := exceptBind_ok h
      obtain ⟨x12, h12, h⟩ := exceptBind_ok h
      obtain ⟨p, hp, h⟩ := exceptBind_ok h
      obtain ⟨vs0, ns0⟩ := p
      obtain ⟨hv, hn⟩ := ih (off + 50) vs0 ns0 hp
      simp at h
      obtain ⟨hveq, hneq⟩ := h
      subst hveq hneq
      constructor <;> simp [hv, hn] <;> ring

theorem binTriangles_total {b : List Nat} :
    ∀ (i off : Nat), off + 50 * i ≤ b.length + 2 →
      ∃ p, binTriangles b i off = .ok p := by
  intro i
  induction i with
  | zero => exact fun off _ => ⟨([], []), rfl⟩
  | succ n ih =>
      intro off h
      obtain ⟨p, hp⟩ := ih (off + 50) (by omega)
      obtain ⟨vs0, ns0⟩ := p
      simp only [binTriangles, getFloat32LE]
      rw [dif_pos (by omega), dif_pos (by omega), dif_pos (by omega), dif_pos (by omega),
          dif_pos (by omega), dif_pos (by omega), dif_pos (by omega), dif_pos (by omega),
          dif_pos (by omega), dif_pos (by omega), dif_pos (by omega), dif_pos (by omega)]
      simp only [Bind.bind, Except.bind, hp]
      exact ⟨_, rfl⟩

theorem parseBinarySTL_ok_len {b : List Nat} {m : STLMesh}
    (h : parseBinarySTL b = .ok m) :
    ∃ tc, getUint32LE b 80 = .ok tc ∧
      m.vertices.length = 9 * tc ∧ m.normals.length = 9 * tc := by
  simp only [parseBinarySTL] at h
  obtain ⟨tc, htc, h⟩ := exceptBind_ok h
  obtain ⟨p, hp, h⟩ := exceptBind_ok h
  obtain ⟨vs0, ns0⟩ := p
  obtain ⟨hv, hn⟩ := binTriangles_ok_len _ _ _ _ hp
  simp at h
  exact ⟨tc, htc, by simp [← h, hv, hn]⟩

/-- The per-line contribution of the text path: a `vertex` line grows both
flat arrays by 3, any other line leaves them unchanged; the current normal
always stays a 3-element list. -/
theorem asciiLine_len (st : AsciiSt) (l : String) (h3 : st.currentNormal.length = 3) :
    (asciiLine st l).vertices.length
      = st.vertices.length +
        3 * (if (!strStarts (jsTrim l) "facet normal" &&
                 strStarts (jsTrim l) "vertex") = true then 1 else 0) ∧
    (asciiLine st l).normals.length
      = st.normals.length +
        3 * (if (!strStarts (jsTrim l) "facet normal" &&
                 strStarts (jsTrim l) "vertex") = true then 1 else 0) ∧
    (asciiLine st l).currentNormal.length = 3 := by
  unfold asciiLine
  by_cases hf : strStarts (jsTrim l) "facet normal" <;>
    by_cases hv : strStarts (jsTrim l) "vertex" <;>
      simp [hf, hv, h3]

theorem asciiFold_len (lines : List String) :
    ∀ st : AsciiSt, st.currentNormal.length = 3 →
      ((lines.foldl asciiLine st).vertices.length
        = st.vertices.length + 3 * countVertexLines lines) ∧
      ((lines.foldl asciiLine st).normals.length
        = st.normals.length + 3 * countVertexLines lines) ∧
      (lines.foldl asciiLine st).currentNormal.length = 3 := by
  induction lines with
  | nil => intro st h3; simp [countVertexLines, h3]
  | cons l rest ih =>
      intro st h3
      simp only [List.foldl_cons]
      obtain ⟨s1, s2, s3⟩ := asciiLine_len st l h3
      obtain ⟨h1, h2, h3c⟩ := ih (asciiLine st l) s3
      by_cases hc : (!strStarts (jsTrim l) "facet normal" &&
                     strStarts (jsTrim l) "vertex") = true <;>
        refine ⟨?_, ?_, h3c⟩ <;>
          simp only [h1, s1, h2, s2, countVertexLines, List.countP_cons, hc] <;>
            simp [hc] <;> omega

theorem parseSTL_binary_exact {b : List Nat} {tc : Nat}
    (h80 : getUint32LE b 80 = .ok tc) (hlen : b.length = 84 + 50 * tc) :
    parseSTL b = parseBinarySTL b := by
  have h84 : ¬ b.length < 80 := by omega
  have hB : isBinarySTL b = .ok true := by
    simp only [isBinarySTL, h80, Bind.bind, Except.bind]
    simp only [Except.ok.injEq, decide_eq_true_eq]
    omega
  unfold parseSTL
  rw [if_neg h84]
  by_cases hs : strStarts (decodeBytes (b.take 80)) "solid"
  · simp [hs, hB]
  · simp [hs]

theorem parseASCIISTL_len (b : List Nat) :
    (parseASCIISTL b).vertices.length
      = 3 * countVertexLines (splitLines (decodeBytes b)) ∧
    (parseASCIISTL b).normals.length
      = 3 * countVertexLines (splitLines (decodeBytes b)) := by
  obtain ⟨h1, h2, _⟩ :=
    asciiFold_len (splitLines (decodeBytes b))
      (⟨[.lit 0, .lit 0, .lit 0], [], []⟩ : AsciiSt) (by simp)
  exact ⟨by simpa [parseASCIISTL] using h1, by simpa [parseASCIISTL] using h2⟩

/-! ## Claims about the mesh decoder -/

/-- Claim C8 (amended).  The decoder always returns parallel arrays
(`normals.length = vertices.length`); a well-formed binary artifact whose
header declares `tc` triangles and whose size matches the binary layout
exactly decodes to arrays of length `9 * tc`; on the text path the array
length is `3 *` (number of `vertex` lines), so the triangle count matches
the binary artifact's exactly when the text has three `vertex` lines per
facet.  (The original claim's "`vertices.length` is a multiple of 9 for
every accepted buffer" fails on the text path, see the counterexample.) -/
theorem claim_C8 :
    (∀ (b : List Nat) (m : STLMesh), parseSTL b = .ok m →
       m.normals.length = m.vertices.length) ∧
    (∀ (b : List Nat) (tc : Nat), getUint32LE b 80 = .ok tc →
       b.length = 84 + 50 * tc →
       ∃ m, parseSTL b = .ok m ∧
         m.vertices.length = 9 * tc ∧ m.normals.length = 9 * tc) ∧
    (∀ b : List Nat,
       (parseASCIISTL b).vertices.length
         = 3 * countVertexLines (splitLines (decodeBytes b)) ∧
       (parseASCIISTL b).normals.length
         = 3 * countVertexLines (splitLines (decodeBytes b))) := by
  have hbinCase : ∀ (b : List Nat) (m : STLMesh), parseBinarySTL b = .ok m →
      m.normals.length = m.vertices.length := by
    intro b m h
    obtain ⟨tc, -, hv, hn⟩ := parseBinarySTL_ok_len h
    rw [hv, hn]
  refine ⟨?_, ?_, parseASCIISTL_len⟩
  · intro b m h
    unfold parseSTL at h
    by_cases h80 : b.length < 80
    · rw [if_pos h80] at h
      exact absurd h (by simp)
    · rw [if_neg h80] at h
      by_cases hs : strStarts (decodeBytes (b.take 80)) "solid"
      · simp only [hs, if_true] at h
        cases hB : isBinarySTL b with
        | error e => rw [hB] at h; exact absurd h (by simp)
        | ok bb =>
            rw [hB] at h
            cases bb with
            | true => exact hbinCase b m (by simpa using h)
            | false =>
                simp only [Except.ok.injEq] at h
                subst h
                obtain ⟨h1, h2⟩ := parseASCIISTL_len b
                rw [h1, h2]
      · simp only [hs, Bool.false_eq_true, if_false] at h
        exact hbinCase b m h
  · intro b tc h80 hlen
    obtain ⟨p, hp⟩ := @binTriangles_total b tc 84 (by omega)
    obtain ⟨vs0, ns0⟩ := p
    have hbin : parseBinarySTL b = .ok ⟨vs0, ns0⟩ := by
      simp [parseBinarySTL, h80, Bind.bind, Except.bind, hp]
    obtain ⟨hv, hn⟩ := binTriangles_ok_len _ _ _ _ hp
    exact ⟨⟨vs0, ns0⟩, by rw [parseSTL_binary_exact h80 hlen, hbin], hv, hn⟩

/-- Witness for claim C8 at concrete artifacts. -/
theorem claim_C8_witness :
    bin134Mesh.normals.length = bin134Mesh.vertices.length ∧
    (∃ m, parseSTL bin134 = .ok m ∧
       m.vertices.length = 9 * 1 ∧ m.normals.length = 9 * 1) ∧
    (parseASCIISTL asciiOneVertex).vertices.length
      = 3 * countVertexLines (splitLines (decodeBytes asciiOneVertex)) :=
  ⟨claim_C8.1 bin134 bin134Mesh (by decide),
   claim_C8.2.1 bin134 1 (by decide) (by decide),
   (claim_C8.2.2 asciiOneVertex).1⟩

/-- Counterexample for claim C8 as stated: a text artifact with a single
`vertex` line is accepted by the decoder, yet its flat vertex array has
length 3 — not a multiple of 9. -/
theorem claim_C8_counterexample :
    parseSTL asciiOneVertex = .ok asciiOneVertexMesh ∧
    asciiOneVertexMesh.vertices.length = 3 ∧
    ¬ asciiOneVertexMesh.vertices.length % 9 = 0 :=
  ⟨by decide, by decide, by decide⟩

/-- Claim C10 (confirmed).  Every buffer shorter than 84 bytes makes
`parseSTL` fail with a `RangeError`: the header slice and the size check
read fixed offsets 0..83 before any format dispatch. -/
theorem claim_C10 :
    ∀ b : List Nat, b.length < 84 → parseSTL b = .error .rangeError := by
  intro b h
  unfold parseSTL
  by_cases h80 : b.length < 80
  · rw [if_pos h80]
  · rw [if_neg h80]
    have hU := @getUint32LE_err b 80 (by omega)
    have hB : isBinarySTL b = .error .rangeError := by
      simp [isBinarySTL, hU, Bind.bind, Except.bind]
    have hP : parseBinarySTL b = .error .rangeError := by
      simp [parseBinarySTL, hU, Bind.bind, Except.bind]
    by_cases hs : strStarts (decodeBytes (b.take 80)) "solid"
    · simp [hs, hB]
    · simp [hs, hP]

/-- Witness for claim C10: a 29-byte well-formed text artifact is
nevertheless rejected with a `RangeError`. -/
theorem claim_C10_witness :
    shortSolid.length < 84 ∧ parseSTL shortSolid = .error .rangeError :=
  ⟨by decide, claim_C10 shortSolid (by decide)⟩

/-! ## Claims about the worker engine operations -/

/-- Claim C1 (confirmed).  If the entry point throws a numeric exit status
or an `ExitStatus` value — whatever the status — but the output scratch
file exists, is non-empty and decodes to a mesh with at least one
triangle, the worker posts a `render-result` carrying that mesh: success
is decided by artifact inspection alone. -/
theorem claim_C1 (beh : EngineBeh) (code : String) (fs0 : WorkerFS)
    (hInit : beh.initOk = true)
    (hThrow : (∃ n, beh.callMainThrow = some (.num n)) ∨
              (∃ n, beh.callMainThrow = some (.exitStatusV n)))
    (bytes : List Nat) (hOut : beh.producedOutput = some bytes)
    (hne : ¬ bytes.length = 0)
    (m : STLMesh) (hparse : parseSTL bytes = .ok m)
    (htri : 9 ≤ m.vertices.length) :
    (workerRenderScadToSTL beh code fs0).post
      = .renderResult m beh.stderrLines bytes.length := by
  have hv : ¬ m.vertices.length = 0 := by omega
  simp [workerRenderScadToSTL, hInit, hOut, hparse, hne, hv]

/-- Witness for claim C1: concrete scenario 4 — `callMain` throws the
numeric exit status 1, yet the artifact `bin134` is present and valid. -/
theorem claim_C1_witness :
    (workerRenderScadToSTL behExitButOutput "cube(1);" {}).post
      = .renderResult bin134Mesh [] 134 :=
  claim_C1 behExitButOutput "cube(1);" {} (by decide) (Or.inl ⟨1, rfl⟩)
    bin134 rfl (by decide) bin134Mesh (by decide) (by decide)

/-- Claim C4 (amended).  The service variant removes both scratch files in
a `finally` on every exit path once the engine is initialised; the worker
variant instead removes them at the start of each operation (so the
operation's outcome never depends on scratch content left by a previous
request) and removes them again after a successful render — but its
failure paths return with the scratch input still present (see the
counterexample), so the original "removed on every exit path before
returning" is false for it. -/
theorem claim_C4 :
    (∀ (beh : EngineBeh) (code : String) (fs0 : WorkerFS), beh.initOk = true →
       (svcRenderScadToSTL beh code fs0).2.inputScad = none ∧
       (svcRenderScadToSTL beh code fs0).2.outputStl = none) ∧
    (∀ (beh : EngineBeh) (code : String) (fs1 fs2 : WorkerFS),
       (workerRenderScadToSTL beh code fs1).post
         = (workerRenderScadToSTL beh code fs2).post) ∧
    (∀ (beh : EngineBeh) (code : String) (fs0 : WorkerFS)
       (m : STLMesh) (lgs : List String) (n : Nat),
       (workerRenderScadToSTL beh code fs0).post = .renderResult m lgs n →
       (workerRenderScadToSTL beh code fs0).fs.inputScad = none ∧
       (workerRenderScadToSTL beh code fs0).fs.outputStl = none) := by
  refine ⟨?_, ?_, ?_⟩
  · intro beh code fs0 h
    have h2 : ¬ beh.initOk = false := by simp [h]
    simp [svcRenderScadToSTL, h2]
  · intro beh code fs1 fs2
    by_cases hi : beh.initOk = false
    · simp [workerRenderScadToSTL, hi]
    · simp only [workerRenderScadToSTL, hi, if_false]
      cases hp : beh.producedOutput with
      | none => simp
      | some bytes =>
          by_cases hb : bytes.length = 0
          · simp [hb]
          · simp only [hb, if_false]
            cases hps : parseSTL bytes with
            | error e => simp
            | ok m => by_cases hv : m.vertices.length = 0 <;> simp [hv]
  · intro beh code fs0 m lgs n h
    unfold workerRenderScadToSTL at h ⊢
    by_cases hi : beh.initOk = false
    · rw [if_pos hi] at h; simp at h
    · rw [if_neg hi] at h ⊢
      cases hp : beh.producedOutput with
      | none =>
          try rw [hp] at h
          simp at h
      | some bytes =>
          try rw [hp] at h
          by_cases hb : bytes.length = 0
          · simp [hb] at h
          · cases hps : parseSTL bytes with
            | error e => simp [hb, hps] at h
            | ok mm =>
                by_cases hv : mm.vertices.length = 0
                · simp [hb, hps, hv] at h
                · simp [hb, hps, hv]

/-- Witness for claim C4 at a successful concrete render. -/
theorem claim_C4_witness :
    ((svcRenderScadToSTL behExitButOutput "cube(1);" {}).2.inputScad = none ∧
     (svcRenderScadToSTL behExitButOutput "cube(1);" {}).2.outputStl = none) ∧
    (workerRenderScadToSTL behExitButOutput "cube(1);"
        { inputScad := some "stale", outputStl := some [1] }).post
      = (workerRenderScadToSTL behExitButOutput "cube(1);" {}).post ∧
    ((workerRenderScadToSTL behExitButOutput "cube(1);" {}).fs.inputScad = none ∧
     (workerRenderScadToSTL behExitButOutput "cube(1);" {}).fs.outputStl = none) :=
  ⟨claim_C4.1 behExitButOutput "cube(1);" {} (by decide),
   claim_C4.2.1 behExitButOutput "cube(1);"
     { inputScad := some "stale", outputStl := some [1] } {},
   claim_C4.2.2 behExitButOutput "cube(1);" {} bin134Mesh [] 134 (by decide)⟩

/-- Counterexample for claim C4 as stated: on the worker's failure path
(`callMain` throws a non-`ExitStatus` error and no artifact is produced)
the operation completes with a `render-error` post while the scratch input
file is still present. -/
theorem claim_C4_counterexample :
    (workerRenderScadToSTL behThrowNoOutput "cube(1);" {}).post
      = .renderError "No output generated" [] ∧
    (workerRenderScadToSTL behThrowNoOutput "cube(1);" {}).fs.inputScad
      = some "cube(1);" ∧
    ¬ (workerRenderScadToSTL behThrowNoOutput "cube(1);" {}).fs.inputScad = none :=
  ⟨by decide, by decide, by decide⟩

/-- Claim C7 (amended).  In the worker variant, `valid` is `true` iff the
effective exit status is zero-equivalent AND no captured diagnostic line
contains the substring `ERROR` or `error`; captured lines without those
substrings (e.g. plain warnings) do not force `valid = false` — contrary
to the original claim (see the counterexample).  The service variant does
satisfy the original reading: `valid` iff exit code 0 and zero captured
lines. -/
theorem claim_C7 :
    (∀ (beh : EngineBeh) (code : String) (fs0 : WorkerFS),
       (workerValidateCode beh code fs0).1.valid = true ↔
         (wExitOk beh = true ∧
          ((workerValidateCode beh code fs0).1.errors.filter
             (fun l => containsSub l "ERROR" || containsSub l "error")) = [])) ∧
    (∀ (beh : EngineBeh) (code : String) (fs0 : WorkerFS),
       (svcValidateScadCode beh code fs0).1.valid = true ↔
         (beh.initOk = true ∧ svcExitCode beh = 0 ∧ beh.stderrLines = [])) := by
  constructor
  · intro beh code fs0
    by_cases hi : beh.initOk = false
    · simp [workerValidateCode, workerValidPost, wExitOk, hi]
    · have hI : beh.initOk = true := by revert hi; cases beh.initOk <;> simp
      cases ht : beh.callMainThrow with
      | none => simp [workerValidateCode, workerValidPost, wExitOk, hi, hI, ht, List.length_eq_zero]
      | some t =>
          cases t with
          | num n =>
              simp [workerValidateCode, workerValidPost, wExitOk, hi, hI, ht, List.length_eq_zero,
                and_assoc]
          | exitStatusV n =>
              simp [workerValidateCode, workerValidPost, wExitOk, hi, hI, ht, List.length_eq_zero,
                and_assoc]
          | otherErr msg =>
              simp [workerValidateCode, workerValidPost, wExitOk, hi, hI, ht, List.length_eq_zero]
  · intro beh code fs0
    by_cases hi : beh.initOk = false
    · simp only [svcValidateScadCode, hi, if_true]
      simp only [Bool.false_eq_true, false_iff, not_and]
      intro hI
      exact absurd hI (by simpa using hi)
    · have hI : beh.initOk = true := by revert hi; cases beh.initOk <;> simp
      simp [svcValidateScadCode, svcExitCode, hi, hI]

/-- Counterexample for claim C7 as stated: the engine call returns
normally while one advisory line (containing neither `ERROR` nor `error`)
was captured on the diagnostic channel — a captured diagnostic line, yet
the posted `valid` is `true`. -/
theorem claim_C7_counterexample :
    (workerValidateCode behWarnOnly "cube(1);" {}).1.valid = true ∧
    (workerValidateCode behWarnOnly "cube(1);" {}).1.errors
      = ["Warning: advisory only"] ∧
    ¬ (workerValidateCode behWarnOnly "cube(1);" {}).1.errors = [] :=
  ⟨by decide, by decide, by decide⟩

/-! ## Claims about the render controller -/

/-- Claim C9 (confirmed).  Empty or whitespace-only source: the render
operation nulls the stored mesh and error, clears the lint diagnostics,
and submits nothing to the engine. -/
theorem claim_C9 (s : CtrlState) (code : String)
    (h : code.toList.all jsWhite = true) :
    (renderSyncCtrl s code).1.mesh = none ∧
    (renderSyncCtrl s code).1.error = none ∧
    (renderSyncCtrl s code).1.lintErrors = [] ∧
    (renderSyncCtrl s code).2 = false := by
  have h2 : List.dropWhile jsWhite code.data = [] :=
    List.dropWhile_eq_nil_iff.mpr
      (by simpa [String.toList, List.all_eq_true] using h)
  have ht : jsTrim code = "" := by
    simp [jsTrim, String.toList, h2]
  simp [renderSyncCtrl, ht]

/-- Witness for claim C9 at the whitespace-only source `" "`. -/
theorem claim_C9_witness :
    (renderSyncCtrl {} " ").1.mesh = none ∧
    (renderSyncCtrl {} " ").1.error = none ∧
    (renderSyncCtrl {} " ").1.lintErrors = [] ∧
    (renderSyncCtrl {} " ").2 = false :=
  claim_C9 {} " " (by decide)

/-- Claim C5 (amended).  For a burst of calls in which every call's text
differs from the text recorded before it, exactly one compile fires after
the window elapses, with the last call's text.  (As stated the claim is
false: a call whose text equals the last recorded text clears the pending
timer and schedules nothing, so a burst can yield zero compiles — see the
counterexample.) -/
theorem claim_C5 (init : DebState) (calls : List String) (cLast : String)
    (hlast : calls.getLast? = some cLast)
    (hdist : chainDistinct init.lastCode calls) :
    firedCompiles init calls = [cLast] := by
  induction calls generalizing init with
  | nil => simp at hlast
  | cons c rest ih =>
      obtain ⟨hc, hrest⟩ := hdist
      have hstep : debouncedRender init c = ⟨some c, c, true⟩ := by
        simp [debouncedRender, hc]
      cases rest with
      | nil =>
          simp at hlast
          subst hlast
          simp [firedCompiles, hstep]
      | cons d ds =>
          have hl2 : (d :: ds).getLast? = some cLast := by
            rw [← hlast]; exact (List.getLast?_cons_cons ..).symm
          have := ih ⟨some c, c, true⟩ hl2 hrest
          simpa [firedCompiles, hstep] using this

/-- Witness for claim C5: the burst `["a", "b"]` fires exactly one compile
carrying `"b"`. -/
theorem claim_C5_witness : firedCompiles {} ["a", "b"] = ["b"] :=
  claim_C5 {} ["a", "b"] "b" (by decide) ⟨by decide, by decide, trivial⟩

/-- Counterexample for claim C5 as stated: the burst `["a", "a"]` (two
calls inside one debounce window with the same text) enqueues zero
compiles — the second call clears the pending timer and returns — instead
of exactly one compile of `"a"`. -/
theorem claim_C5_counterexample :
    firedCompiles {} ["a", "a"] = [] ∧ ¬ firedCompiles {} ["a", "a"] = ["a"] :=
  ⟨by decide, by decide⟩

/-- Claim C3 (amended).  The hook has no issue-order supersession: the
controller state reflects whichever compile's result settles last,
regardless of issue order.  In particular, when compile A is issued before
compile B but A's result settles after B's, the final state carries A's
outcome, overwriting B's. -/
theorem claim_C3 (pe : String → List LintError) (s0 : CtrlState)
    (codeA codeB : String) (mA : STLMesh) (outB : CtrlOutcome)
    (hA : (renderSyncCtrl s0 codeA).2 = true)
    (hB : (renderSyncCtrl (renderSyncCtrl s0 codeA).1 codeB).2 = true) :
    (twoOverlappingRenders pe s0 codeA codeB (.okMesh mA) outB).mesh = some mA ∧
    (twoOverlappingRenders pe s0 codeA codeB (.okMesh mA) outB).error = none := by
  simp [twoOverlappingRenders, renderAwaitCtrl]

/-- Witness for claim C3: two clean sources, B's success settling before
A's; the final mesh is A's. -/
theorem claim_C3_witness :
    (twoOverlappingRenders (fun _ => []) {} "cube(1);" "cube(2);"
       (.okMesh meshA) (.okMesh meshB)).mesh = some meshA ∧
    (twoOverlappingRenders (fun _ => []) {} "cube(1);" "cube(2);"
       (.okMesh meshA) (.okMesh meshB)).error = none :=
  claim_C3 (fun _ => []) {} "cube(1);" "cube(2);" meshA (.okMesh meshB)
    (by decide) (by decide)

/-! ## The linter agrees with the spec-side scan

`specLineGo`/`specLines` traverse the text with the same discipline as the
linter; the following lemmas show the two traversals keep identical states
and produce pointwise-corresponding outputs, which settles claim C6. -/

set_option maxHeartbeats 8000000 in
theorem lineGo_rel (lineNum : Nat) :
    ∀ (cs : List Char) (st : LintSt) (col : Nat) (prev : Option Char),
      (specLineGo lineNum st col prev cs).1 = (lintLineGo lineNum st col prev cs).1 ∧
      List.Forall₂ evRel (specLineGo lineNum st col prev cs).2
        (lintLineGo lineNum st col prev cs).2 := by
  have main : ∀ (k : Nat) (cs : List Char), cs.length ≤ k →
      ∀ (st : LintSt) (col : Nat) (prev : Option Char),
        (specLineGo lineNum st col prev cs).1 = (lintLineGo lineNum st col prev cs).1 ∧
        List.Forall₂ evRel (specLineGo lineNum st col prev cs).2
          (lintLineGo lineNum st col prev cs).2 := by
    intro k
    induction k with
    | zero =>
        intro cs hcs st col prev
        have : cs = [] := List.eq_nil_of_length_eq_zero (by omega)
        subst this
        exact ⟨rfl, List.Forall₂.nil⟩
    | succ k ih =>
        intro cs hcs st col prev
        obtain ⟨ic, istr, stk⟩ := st
        rcases cs with _ | ⟨ch, _ | ⟨ch2, rest⟩⟩
        · exact ⟨rfl, List.Forall₂.nil⟩
        · have hlen : ([] : List Char).length ≤ k := by simp
          rcases stk with _ | ⟨top, tl⟩ <;>
            · simp only [specLineGo, lintLineGo]
              split_ifs <;>
                first
                | exact ih [] hlen _ _ _
                | exact ⟨rfl, List.Forall₂.nil⟩
                | · refine ⟨?_, ?_⟩
                    · exact (ih [] hlen ⟨ic, istr, []⟩ (col + 1) (some ch)).1
                    · exact List.Forall₂.cons rfl
                        (ih [] hlen ⟨ic, istr, []⟩ (col + 1) (some ch)).2
                | · refine ⟨?_, ?_⟩
                    · exact (ih [] hlen ⟨ic, istr, tl⟩ (col + 1) (some ch)).1
                    · exact List.Forall₂.cons rfl
                        (ih [] hlen ⟨ic, istr, tl⟩ (col + 1) (some ch)).2
        · have hcs2 : (ch2 :: rest).length ≤ k := by
            simp only [List.length_cons] at hcs ⊢; omega
          have hlen : rest.length ≤ k := by
            simp only [List.length_cons] at hcs; omega
          rcases stk with _ | ⟨top, tl⟩ <;>
            · simp only [specLineGo, lintLineGo]
              split_ifs <;>
                first
                | exact ih rest hlen _ _ _
                | exact ih (ch2 :: rest) hcs2 _ _ _
                | exact ⟨rfl, List.Forall₂.nil⟩
                | · refine ⟨?_, ?_⟩
                    · exact (ih (ch2 :: rest) hcs2 ⟨ic, istr, []⟩ (col + 1) (some ch)).1
                    · exact List.Forall₂.cons rfl
                        (ih (ch2 :: rest) hcs2 ⟨ic, istr, []⟩ (col + 1) (some ch)).2
                | · refine ⟨?_, ?_⟩
                    · exact (ih (ch2 :: rest) hcs2 ⟨ic, istr, tl⟩ (col + 1) (some ch)).1
                    · exact List.Forall₂.cons rfl
                        (ih (ch2 :: rest) hcs2 ⟨ic, istr, tl⟩ (col + 1) (some ch)).2
  exact fun cs st col prev => main cs.length cs le_rfl st col prev

theorem heurWarnings_warning (line : String) (n : Nat) (rest : List String) :
    ∀ e ∈ heurWarnings line n rest, e.severity = Severity.warning := by
  intro e he
  simp only [heurWarnings] at he
  split_ifs at he <;> simp_all

theorem errFilter_of_rel {evs : List SEv} {errs : List LintError}
    (h : List.Forall₂ evRel evs errs) : errFilter errs = errs := by
  induction h with
  | nil => rfl
  | @cons a b l1 l2 h1 _ ih =>
      have hsev : b.severity = Severity.error := by
        cases a with
        | stray l c ch => rw [h1]
        | mism => exact h1
        | strEnd => exact h1
      simp [errFilter, List.filter_cons, hsev] at ih ⊢
      exact ih

theorem errFilter_of_warnings {l : List LintError}
    (h : ∀ e ∈ l, e.severity = Severity.warning) : errFilter l = [] := by
  refine List.filter_eq_nil_iff.mpr fun e he => ?_
  simp [h e he]

/-- The per-line outer loops keep identical states and produce
corresponding outputs: the linter's `Error`-severity diagnostics and the
spec-side events match up pointwise. -/
theorem lines_rel (lines : List String) :
    ∀ (st : LintSt) (n : Nat),
      (specLines st n lines).1 = (lintLines st n lines).1 ∧
      List.Forall₂ evRel (specLines st n lines).2
        (errFilter (lintLines st n lines).2) := by
  induction lines with
  | nil => exact fun st n => ⟨rfl, by simp [specLines, lintLines, errFilter]⟩
  | cons line rest ih =>
      intro st n
      obtain ⟨c1, c2⟩ := lineGo_rel n line.toList st 0 none
      simp only [specLines, lintLines]
      by_cases hstr : (lintLineGo n st 0 none line.toList).1.inString = true
      · simp only [c1, hstr, if_true]
        obtain ⟨m1, m2⟩ :=
          ih { (lintLineGo n st 0 none line.toList).1 with inString := false } (n + 1)
        refine ⟨m1, ?_⟩
        rw [errFilter, List.filter_append, List.filter_append, List.filter_append,
            ← errFilter, ← errFilter, ← errFilter, ← errFilter,
            errFilter_of_rel c2,
            errFilter_of_warnings (heurWarnings_warning line n rest)]
        have hone : List.Forall₂ evRel [SEv.strEnd]
            [⟨n + 1, 1, "Unclosed string literal", Severity.error⟩] :=
          List.Forall₂.cons rfl List.Forall₂.nil
        simpa using List.rel_append c2 (List.rel_append hone m2)
      · simp only [c1, hstr, if_false]
        obtain ⟨m1, m2⟩ := ih (lintLineGo n st 0 none line.toList).1 (n + 1)
        refine ⟨m1, ?_⟩
        rw [errFilter, List.filter_append, List.filter_append, List.filter_append,
            ← errFilter, ← errFilter, ← errFilter, ← errFilter,
            errFilter_of_rel c2,
            errFilter_of_warnings (heurWarnings_warning line n rest)]
        simpa using List.rel_append c2 m2

/-- A list of spec events whose stray projection is a singleton and which
contains no mismatch or string event is exactly that one stray event. -/
theorem evs_single {evs : List SEv} {l c : Nat} {ch : Char}
    (h1 : evs.filterMap (fun e => match e with
            | .stray l c ch => some (l, c, ch)
            | _ => none) = [(l, c, ch)])
    (h2 : evs.filter (fun e => e = SEv.mism) = [])
    (h3 : evs.filter (fun e => e = SEv.strEnd) = []) :
    evs = [SEv.stray l c ch] := by
  induction evs with
  | nil => simp at h1
  | cons e rest ih =>
      cases e with
      | stray l2 c2 ch2 =>
          simp only [List.filterMap_cons, List.filter_cons] at h1 h2 h3
          simp only [List.cons.injEq, Prod.mk.injEq] at h1
          obtain ⟨⟨e1, e2, e3⟩, h1r⟩ := h1
          subst e1; subst e2; subst e3
          have h2r : rest.filter (fun e => e = SEv.mism) = [] := by
            simpa using h2
          have h3r : rest.filter (fun e => e = SEv.strEnd) = [] := by
            simpa using h3
          have : rest = [] := by
            cases rest with
            | nil => rfl
            | cons e2 r2 =>
                cases e2 with
                | stray l3 c3 ch3 => simp [List.filterMap_cons] at h1r
                | mism => simp [List.filter_cons] at h2r
                | strEnd => simp [List.filter_cons] at h3r
          rw [this]
      | mism => simp [List.filter_cons] at h2
      | strEnd => simp [List.filter_cons] at h3

/-- Claim C6 (confirmed).  For every source text containing a single stray
unmatched closing bracket — a closer with no pending opener, outside
strings and comments, with no other delimiter anomaly — the linter reports
exactly one `Error`-severity diagnostic, at exactly that bracket's 1-based
line and column, and the render operation never submits a compile for that
text. -/
theorem claim_C6 (code : String) (l c : Nat) (ch : Char)
    (h : specSingleStrayCloser code l c ch) :
    errFilter (lintOpenSCAD code).errors
      = [⟨l, c, unexpectedClosingMsg ch, Severity.error⟩] ∧
    ∀ s : CtrlState, (renderSyncCtrl s code).2 = false := by
  unfold specSingleStrayCloser specScan at h
  simp only [ScanSummary.mk.injEq] at h
  obtain ⟨hstray, hmism, hstrEnd, hstack, hcomment⟩ := h
  obtain ⟨m1, m2⟩ := lines_rel (splitLines code) ⟨false, false, []⟩ 0
  have hevs := evs_single hstray
    (List.length_eq_zero.mp hmism) (List.length_eq_zero.mp hstrEnd)
  rw [hevs] at m2
  rw [List.forall₂_cons_left_iff] at m2
  obtain ⟨b, l2, hr, htail, heq⟩ := m2
  rw [List.forall₂_nil_left_iff] at htail
  subst htail
  have hb : b = ⟨l, c, unexpectedClosingMsg ch, Severity.error⟩ := hr
  subst hb
  have hf : errFilter (lintLines ⟨false, false, []⟩ 0 (splitLines code)).2
      = [⟨l, c, unexpectedClosingMsg ch, Severity.error⟩] := heq
  have hstk2 : (lintLines ⟨false, false, []⟩ 0 (splitLines code)).1.stack = [] := by
    rw [← m1]; exact hstack
  have hcom2 : (lintLines ⟨false, false, []⟩ 0 (splitLines code)).1.inComment = false := by
    rw [← m1]; exact hcomment
  have hTotal : errFilter (lintOpenSCAD code).errors
      = [⟨l, c, unexpectedClosingMsg ch, Severity.error⟩] := by
    simp only [lintOpenSCAD, hstk2, hcom2, List.reverse_nil, List.map_nil,
      Bool.false_eq_true, if_false, List.append_nil]
    exact hf
  refine ⟨hTotal, ?_⟩
  intro s
  by_cases htrim : jsTrim code = ""
  · simp [renderSyncCtrl, htrim]
  · have hx : (⟨l, c, unexpectedClosingMsg ch, Severity.error⟩ : LintError)
        ∈ (lintOpenSCAD code).errors := by
      have hm : (⟨l, c, unexpectedClosingMsg ch, Severity.error⟩ : LintError)
          ∈ errFilter (lintOpenSCAD code).errors := by
        rw [hTotal]; exact List.mem_singleton_self _
      exact List.mem_of_mem_filter hm
    have hany : ((lintOpenSCAD code).errors.any
        (fun e => decide (e.severity = Severity.error))) = true :=
      List.any_eq_true.mpr ⟨_, hx, by simp⟩
    simp [renderSyncCtrl, htrim, hany]

/-- Witness for claim C6: the source `"]"` — a single stray closing
bracket at line 1, column 1. -/
theorem claim_C6_witness :
    errFilter (lintOpenSCAD "]").errors
      = [⟨1, 1, unexpectedClosingMsg ']', Severity.error⟩] ∧
    (renderSyncCtrl {} "]").2 = false := by
  have h := claim_C6 "]" 1 1 ']' (by decide)
  exact ⟨h.1, h.2 {}⟩

/-! ## Claims about the worker operation queue -/


/-- Executing one more enqueued message appends exactly its operation to
the trace, and the `catch` leaves the chain resolved whatever the
operation did. -/
theorem execChain_step (beh : Nat → Nat × Bool) (q : PChain) (m : WMessage)
    (hq : (execChain beh q).resolvedOk = true) :
    (execChain beh (workerOnMessage q m)).resolvedOk = true ∧
    (execChain beh (workerOnMessage q m)).trace
      = (execChain beh q).trace ++
        [(opOf m, (execChain beh q).settleTime,
          (execChain beh q).settleTime + (beh (execChain beh q).trace.length).1)] := by
  cases m <;> simp [workerOnMessage, execChain, opOf, hq]

theorem execChain_foldl (beh : Nat → Nat × Bool) (msgs : List WMessage) :
    ∀ q : PChain, (execChain beh q).resolvedOk = true →
      (execChain beh (msgs.foldl workerOnMessage q)).resolvedOk = true ∧
      (execChain beh (msgs.foldl workerOnMessage q)).trace.map Prod.fst
        = (execChain beh q).trace.map Prod.fst ++ msgs.map opOf := by
  induction msgs with
  | nil => intro q hq; exact ⟨hq, by simp⟩
  | cons m rest ih =>
      intro q hq
      obtain ⟨h1, h2⟩ := execChain_step beh q m hq
      obtain ⟨h3, h4⟩ := ih (workerOnMessage q m) h1
      refine ⟨by simpa using h3, ?_⟩
      simp only [List.foldl_cons, List.map_cons]
      rw [h4, h2]
      simp

/-- Every trace an execution produces is sequential: operations occupy
pairwise non-overlapping time intervals, in trace order, all of them
finished by the chain's settle time. -/
theorem execChain_sequential (beh : Nat → Nat × Bool) (q : PChain) :
    List.Pairwise (fun a b => a.2.2 ≤ b.2.1) (execChain beh q).trace ∧
    (∀ e ∈ (execChain beh q).trace, e.2.2 ≤ (execChain beh q).settleTime) := by
  induction q with
  | base => simp [execChain]
  | thenOp c op ih =>
      obtain ⟨hp, hb⟩ := ih
      by_cases hr : (execChain beh c).resolvedOk = true
      · simp only [execChain, hr, if_true]
        constructor
        · refine List.pairwise_append.mpr ⟨hp, List.pairwise_singleton .., ?_⟩
          intro a ha b hb2
          simp only [List.mem_singleton] at hb2
          subst hb2
          exact hb a ha
        · intro e he
          rcases List.mem_append.mp he with h | h
          · exact le_trans (hb e h) (Nat.le_add_right _ _)
          · simp only [List.mem_singleton] at h
            subst h
            exact le_rfl
      · simp only [execChain, hr, if_false]
        exact ⟨hp, hb⟩
  | catchAll c ih => simpa [execChain] using ih

/-- Claim C2 (confirmed).  For every sequence of worker messages and every
behaviour of the queued operations — including arbitrary failures — the
executed trace contains exactly the submitted operations, in submission
order, in pairwise non-overlapping time intervals: FIFO execution, at most
one operation in flight, and a failing operation never prevents a
later-enqueued one from running (the `catch` re-resolves the chain). -/
theorem claim_C2 (msgs : List WMessage) (beh : Nat → Nat × Bool) :
    (execChain beh (msgs.foldl workerOnMessage PChain.base)).trace.map Prod.fst
      = msgs.map opOf ∧
    List.Pairwise (fun a b => a.2.2 ≤ b.2.1)
      (execChain beh (msgs.foldl workerOnMessage PChain.base)).trace := by
  have h := execChain_foldl beh msgs PChain.base (by simp [execChain])
  exact ⟨by simpa [execChain] using h.2, (execChain_sequential beh _).1⟩

/-- Counterexample for claim C3 as stated: with both compiles submitted
(B issued after A) and A settling last, the final state holds A's mesh,
not B's — the superseded request's result does update the state. -/
theorem claim_C3_counterexample :
    (renderSyncCtrl {} "cube(1);").2 = true ∧
    (renderSyncCtrl (renderSyncCtrl {} "cube(1);").1 "cube(2);").2 = true ∧
    (twoOverlappingRenders (fun _ => []) {} "cube(1);" "cube(2);"
       (.okMesh meshA) (.okMesh meshB)).mesh = some meshA ∧
    ¬ (twoOverlappingRenders (fun _ => []) {} "cube(1);" "cube(2);"
       (.okMesh meshA) (.okMesh meshB)).mesh = some meshB :=
  ⟨by decide, by decide, by decide, by decide⟩

end AgentCad
